import Mathlib

/-!
easyrand: a verification development

A shallow embedding of `src/easyrand.h`, the facade over the C++ `<random>`
facilities, together with theorems about it.

Modelling choices.

* The program state is a map from thread to that thread's engine slot
  (`World`): `none` while the `thread_local` engine of `detail::get_engine` has
  not been constructed yet, `some e` afterwards.
* `std::random_device` is a source of non-determinism. Every operation takes the
  value a draw from it would deliver (`rd`) as an explicit argument; the draw is
  used only where the source really evaluates `get_random_seed()`.
* The standard library is not part of the repository. It is a parameter
  (`StdLib`): the engine type, its constructor and `seed`, and the two uniform
  distributions, with the postconditions the C++ standard gives them as fields
  (`StdLibReal` adds the order of the floating-point values and the range of the
  real distribution). `refStd` and `refStdReal` are executable instances.
* A reference to the engine that is handed to a distribution is modelled by
  reading the slot, running the distribution on the value, and writing the
  resulting engine state back to the same slot.
-/

namespace easyrand

/-- The arithmetic types a bound of `rand(a, b)` can have. -/
inductive CType
  | bool | char | signed_char | unsigned_char | wchar_t | char16_t | char32_t
  | short | int | long | long_long
  | unsigned_short | unsigned_int | unsigned_long | unsigned_long_long
  | float | double | long_double
  deriving DecidableEq, Repr

/-- The trait `std::is_same<T, U>::value`. -/
def is_same (T U : CType) : Bool := decide (T = U)

/-- The trait `std::is_floating_point<T>::value`. -/
def is_floating_point : CType → Bool
  | .float => true
  | .double => true
  | .long_double => true
  | _ => false

namespace detail

/-- The trait `detail::is_integer<T>` (easyrand.h, lines 50-61). -/
def is_integer (T : CType) : Bool :=
  is_same T .short ||
  is_same T .int ||
  is_same T .long ||
  is_same T .long_long ||
  is_same T .unsigned_short ||
  is_same T .unsigned_int ||
  is_same T .unsigned_long ||
  is_same T .unsigned_long_long

end detail

/-- Template argument deduction for `template <class T> rand(T a, T b)`: both
arguments deduce `T`, and the deduction succeeds only when they agree. -/
def deduce (Ta Tb : CType) : Option CType :=
  if Ta = Tb then some Ta else none

/-- The two function templates named `rand` that take two bounds. -/
inductive RandOverload
  | integer
  | floating
  deriving DecidableEq, Repr

/-- The `std::enable_if_t` condition in the return type of each overload
(easyrand.h, lines 76 and 83): the overload takes part in overload resolution
for `T` only when its condition is true. -/
def RandOverload.enabled : RandOverload → CType → Bool
  | .integer, T => detail.is_integer T
  | .floating, T => is_floating_point T

/-- The overloads of `rand(T, T)` that are viable for a call whose bounds have
the types `Ta` and `Tb`. -/
def viable (Ta Tb : CType) : List RandOverload :=
  match deduce Ta Tb with
  | none => []
  | some T => [RandOverload.integer, RandOverload.floating].filter (fun o => o.enabled T)

/-- A call `rand(a, b)` compiles when exactly one overload is viable. -/
def accepted (Ta Tb : CType) : Bool := (viable Ta Tb).length == 1

/-! ## The standard library, as a parameter -/

/-- Whether `T` is one of the signed integer types. -/
def is_signed_integer : CType → Bool
  | .short => true
  | .int => true
  | .long => true
  | .long_long => true
  | _ => false

/-- The value `std::numeric_limits<T>::min()` of an integer type, for a given
width in bits of each type. -/
def min_value (bits : CType → Nat) (T : CType) : Int :=
  if is_signed_integer T then -((2 : Int) ^ (bits T - 1)) else 0

/-- The value `std::numeric_limits<T>::max()` of an integer type, for a given
width in bits of each type. -/
def max_value (bits : CType → Nat) (T : CType) : Int :=
  if is_signed_integer T then (2 : Int) ^ (bits T - 1) - 1 else (2 : Int) ^ bits T - 1

/-- The part of the C++ standard library that `easyrand.h` calls. `E` is the
type of the states of `std::default_random_engine`, `F` the type of the
floating-point values. The last two fields are the postconditions the standard
gives: after `e.seed(s)` the engine equals a newly constructed `E(s)`, and
`uniform_int_distribution<T>(a, b)` with `a <= b` produces values in `[a, b]`. -/
structure StdLib (E F : Type) where
  /-- The width in bits of each integer type (implementation-defined). -/
  bits : CType → Nat
  /-- The constructor `std::default_random_engine e{s}`. -/
  engine_of_seed : Nat → E
  /-- The member `e.seed(s)`: the state of `e` afterwards. -/
  seed : E → Nat → E
  /-- The call `uniform_int_distribution<T>(a, b)(e)`: the sample and the state
  of `e` afterwards. -/
  uniform_int : CType → Int → Int → E → Int × E
  /-- The call `uniform_real_distribution<T>(a, b)(e)`: the sample and the
  state of `e` afterwards. -/
  uniform_real : CType → F → F → E → F × E
  seed_eq : ∀ e s, seed e s = engine_of_seed s
  uniform_int_range : ∀ T a b e, min_value bits T ≤ a → a ≤ b → b ≤ max_value bits T →
    a ≤ (uniform_int T a b e).1 ∧ (uniform_int T a b e).1 ≤ b

/-- A distribution class `Dist`, as the templates `rand(Dist&)`,
`rand(Dist&, param_type const&)` and `make_rng<Dist>(args...)` use it: its
objects, its `param_type`, its `result_type`, its constructor arguments, the
constructor, `operator()(g)`, `param()` and `operator()(g, p)`. A call returns
the sample, the distribution object afterwards and the engine afterwards. -/
structure Distribution (E : Type) where
  Obj : Type
  Param : Type
  Result : Type
  Args : Type
  construct : Args → Obj
  call : Obj → E → Result × Obj × E
  param : Obj → Param
  call_param : Obj → E → Param → Result × Obj × E

/-- The library of `StdLib` together with the order of the floating-point
values, the values of the literals `0.0` and `1.0`, and the postcondition the
standard gives `uniform_real_distribution<T>(a, b)`: it produces values `x` with
`a <= x < b`. For `a = b`, which the precondition `a <= b` of its constructor
admits and where the half-open interval is empty, the value is `a`. -/
structure StdLibReal (E F : Type) [Preorder F] [Zero F] [One F] extends StdLib E F where
  lit_zero_lt_one : (0 : F) < 1
  uniform_real_range : ∀ T a b e, a ≤ b →
    a ≤ (uniform_real T a b e).1 ∧ (uniform_real T a b e).1 ≤ b ∧
    (a < b → (uniform_real T a b e).1 < b)

/-! ## The program state -/

/-- Thread identifiers. -/
abbrev Tid := Nat

/-- The program state: for each thread, the `thread_local` engine of
`detail::get_engine`, or `none` while it has not been constructed. -/
abbrev World (E : Type) := Tid → Option E

variable {E F : Type}

namespace detail

/-- The function `get_random_seed` (easyrand.h, lines 41-43): the value `rd`
that `std::random_device()()` delivers. -/
def get_random_seed (rd : Nat) : Nat := rd

/-- The function `get_engine` (easyrand.h, lines 45-48): the engine of thread
`t`. The `thread_local` initialiser runs, and draws a seed, only when the slot
of the thread is still empty. Returns the engine and the state afterwards. -/
def get_engine (L : StdLib E F) (rd : Nat) (t : Tid) (w : World E) : E × World E :=
  match w t with
  | some e => (e, w)
  | none =>
    let e := L.engine_of_seed (get_random_seed rd)
    (e, Function.update w t (some e))

/-- Write through the reference that `get_engine` returned on thread `t`. -/
def put_engine (t : Tid) (e : E) (w : World E) : World E :=
  Function.update w t (some e)

end detail

/-! ## The operations of `easyrand.h` -/

/-- The function `reseed()` (easyrand.h, lines 67-69) on thread `t`; `rd2` is
the value its own entropy draw delivers. -/
def reseed (L : StdLib E F) (rd2 : Nat) (rd : Nat) (t : Tid) (w : World E) : World E :=
  let (e, w1) := detail.get_engine L rd t w
  detail.put_engine t (L.seed e (detail.get_random_seed rd2)) w1

/-- The function `reseed(value)` (easyrand.h, lines 70-72) on thread `t`. -/
def reseed_value (L : StdLib E F) (value : Nat) (rd : Nat) (t : Tid) (w : World E) : World E :=
  let (e, w1) := detail.get_engine L rd t w
  detail.put_engine t (L.seed e value) w1

/-- The integer overload of `rand(a, b)` (easyrand.h, lines 75-79) on thread
`t`. The argument `_hT` is the `enable_if` condition of the overload. -/
def rand_int (L : StdLib E F) (T : CType) (_hT : detail.is_integer T = true) (a b : Int)
    (rd : Nat) (t : Tid) (w : World E) : Int × World E :=
  let (e, w1) := detail.get_engine L rd t w
  let (r, e1) := L.uniform_int T a b e
  (r, detail.put_engine t e1 w1)

/-- The floating-point overload of `rand(a, b)` (easyrand.h, lines 82-86) on
thread `t`. The argument `_hT` is the `enable_if` condition of the overload. -/
def rand_real (L : StdLib E F) (T : CType) (_hT : is_floating_point T = true) (a b : F)
    (rd : Nat) (t : Tid) (w : World E) : F × World E :=
  let (e, w1) := detail.get_engine L rd t w
  let (r, e1) := L.uniform_real T a b e
  (r, detail.put_engine t e1 w1)

/-- The function `rand(dist)` (easyrand.h, lines 89-92) on thread `t`: the
sample, the distribution object afterwards and the state afterwards. -/
def rand_dist (L : StdLib E F) (D : Distribution E) (dist : D.Obj)
    (rd : Nat) (t : Tid) (w : World E) : D.Result × D.Obj × World E :=
  let (e, w1) := detail.get_engine L rd t w
  let (r, d1, e1) := D.call dist e
  (r, d1, detail.put_engine t e1 w1)

/-- The function `rand(dist, p)` (easyrand.h, lines 95-98) on thread `t`: the
sample, the distribution object afterwards and the state afterwards. -/
def rand_dist_param (L : StdLib E F) (D : Distribution E) (dist : D.Obj) (p : D.Param)
    (rd : Nat) (t : Tid) (w : World E) : D.Result × D.Obj × World E :=
  let (e, w1) := detail.get_engine L rd t w
  let (r, d1, e1) := D.call_param dist e p
  (r, d1, detail.put_engine t e1 w1)

/-- The closure type of the lambda `[a,b]{ return rand(a, b); }`: its only
members are the two captured copies. `T` is the static type of the bounds. -/
structure BoundRng (T : CType) (α : Type) where
  a : α
  b : α

/-- The function `make_rng(a, b)` (easyrand.h, lines 101-104). -/
def make_rng {α : Type} (T : CType) (a b : α) : BoundRng T α := ⟨a, b⟩

/-- Invoking the closure of `make_rng(a, b)` for an integer type `T`. -/
def BoundRng.call_int (L : StdLib E F) {T : CType} (f : BoundRng T Int)
    (hT : detail.is_integer T = true) (rd : Nat) (t : Tid) (w : World E) : Int × World E :=
  rand_int L T hT f.a f.b rd t w

/-- Invoking the closure of `make_rng(a, b)` for a floating-point type `T`. -/
def BoundRng.call_real (L : StdLib E F) {T : CType} (f : BoundRng T F)
    (hT : is_floating_point T = true) (rd : Nat) (t : Tid) (w : World E) : F × World E :=
  rand_real L T hT f.a f.b rd t w

/-- The closure type of the lambda `[dist = Dist(args...)]() mutable`: its only
member is the distribution object. -/
structure DistRng (D : Distribution E) where
  dist : D.Obj

/-- The function `make_rng<Dist>(args...)` (easyrand.h, lines 107-110). -/
def make_rng_dist (D : Distribution E) (args : D.Args) : DistRng D :=
  ⟨D.construct args⟩

/-- Invoking the closure of `make_rng<Dist>(args...)`: the sample, the closure
afterwards (the lambda is `mutable`) and the state afterwards. -/
def DistRng.call (L : StdLib E F) {D : Distribution E} (f : DistRng D)
    (rd : Nat) (t : Tid) (w : World E) : D.Result × DistRng D × World E :=
  let (r, d1, w1) := rand_dist L D f.dist rd t w
  (r, ⟨d1⟩, w1)

/-! ## Sequences of calls -/

/-- Taking `n` samples of `rand(a, b)` in a row on thread `t`, as the loops of
`example.cpp` do; `rds i` is the entropy draw available to the `i`-th call. -/
def samples (L : StdLib E F) (T : CType) (hT : detail.is_integer T = true) (a b : Int)
    (t : Tid) : Nat → (Nat → Nat) → World E → List Int × World E
  | 0, _, w => ([], w)
  | n + 1, rds, w =>
    let (r, w1) := rand_int L T hT a b (rds 0) t w
    let (rs, w2) := samples L T hT a b t n (fun i => rds (i + 1)) w1
    (r :: rs, w2)

/-- Invoking the closure of `make_rng<Dist>(args...)` `k` times in a row on
thread `t`: the samples, the closure afterwards and the state afterwards. -/
def DistRng.calls (L : StdLib E F) {D : Distribution E} (t : Tid) :
    Nat → DistRng D → (Nat → Nat) → World E → List D.Result × DistRng D × World E
  | 0, f, _, w => ([], f, w)
  | k + 1, f, rds, w =>
    let (r, f1, w1) := f.call L (rds 0) t w
    let (rs, f2, w2) := DistRng.calls L t k f1 (fun i => rds (i + 1)) w1
    (r :: rs, f2, w2)

/-- Calling `rand(d)` `k` times in a row on one distribution object `d` on
thread `t`: the samples, the object afterwards and the state afterwards. -/
def rand_dist_n (L : StdLib E F) (D : Distribution E) (t : Tid) :
    Nat → D.Obj → (Nat → Nat) → World E → List D.Result × D.Obj × World E
  | 0, d, _, w => ([], d, w)
  | k + 1, d, rds, w =>
    let (r, d1, w1) := rand_dist L D d (rds 0) t w
    let (rs, d2, w2) := rand_dist_n L D t k d1 (fun i => rds (i + 1)) w1
    (r :: rs, d2, w2)

/-- One call of the public interface, with its arguments: the two `reseed`
functions, the four `rand` functions and the invocation of the three kinds of
`make_rng` callable. -/
inductive Op (E F : Type) : Type 1
  | reseed (rd2 : Nat)
  | reseed_value (value : Nat)
  | rand_int (T : CType) (hT : detail.is_integer T = true) (a b : Int)
  | rand_real (T : CType) (hT : is_floating_point T = true) (a b : F)
  | rand_dist (D : Distribution E) (dist : D.Obj)
  | rand_dist_param (D : Distribution E) (dist : D.Obj) (p : D.Param)
  | rng_int (T : CType) (hT : detail.is_integer T = true) (f : BoundRng T Int)
  | rng_real (T : CType) (hT : is_floating_point T = true) (f : BoundRng T F)
  | rng_dist (D : Distribution E) (f : DistRng D)

/-- The state after thread `t` performs the call `op`. -/
def Op.run (L : StdLib E F) (rd : Nat) (t : Tid) (w : World E) : Op E F → World E
  | .reseed rd2 => easyrand.reseed L rd2 rd t w
  | .reseed_value value => easyrand.reseed_value L value rd t w
  | .rand_int T hT a b => (easyrand.rand_int L T hT a b rd t w).2
  | .rand_real T hT a b => (easyrand.rand_real L T hT a b rd t w).2
  | .rand_dist D dist => (easyrand.rand_dist L D dist rd t w).2.2
  | .rand_dist_param D dist p => (easyrand.rand_dist_param L D dist p rd t w).2.2
  | .rng_int _ hT f => (f.call_int L hT rd t w).2
  | .rng_real _ hT f => (f.call_real L hT rd t w).2
  | .rng_dist _ f => (f.call L rd t w).2.2

/-- What the call `op` does to an engine: the state of the engine afterwards,
as the standard library computes it from the state before. -/
def Op.on_engine (L : StdLib E F) (e : E) : Op E F → E
  | .reseed rd2 => L.seed e rd2
  | .reseed_value value => L.seed e value
  | .rand_int T _ a b => (L.uniform_int T a b e).2
  | .rand_real T _ a b => (L.uniform_real T a b e).2
  | .rand_dist D dist => (D.call dist e).2.2
  | .rand_dist_param D dist p => (D.call_param dist e p).2.2
  | .rng_int T _ f => (L.uniform_int T f.a f.b e).2
  | .rng_real T _ f => (L.uniform_real T f.a f.b e).2
  | .rng_dist D f => (D.call f.dist e).2.2

/-- The state after thread `t` performs the calls of `ops` in order, each with
the entropy draw available to it. -/
def run_ops (L : StdLib E F) (t : Tid) : List (Op E F × Nat) → World E → World E
  | [], w => w
  | (op, rd) :: ops, w => run_ops L t ops (op.run L rd t w)

/-- The state of one engine after the calls of `ops` have acted on it in
order. -/
def engine_after (L : StdLib E F) : List (Op E F × Nat) → E → E
  | [], e => e
  | (op, _) :: ops, e => engine_after L ops (op.on_engine L e)

/-! ## An executable standard library -/

/-- The modulus of the engine `std::minstd_rand0`. -/
def minstd_modulus : Nat := 2147483647

/-- One step of the engine `std::minstd_rand0`. -/
def minstd_next (e : Nat) : Nat := 16807 * e % minstd_modulus

/-- The state of `std::minstd_rand0` constructed from the seed `s`. -/
def minstd_of_seed (s : Nat) : Nat :=
  if s % minstd_modulus = 0 then 1 else s % minstd_modulus

/-- The widths of the integer types in the LP64 data model. -/
def lp64_bits : CType → Nat
  | .short => 16
  | .unsigned_short => 16
  | .int => 32
  | .unsigned_int => 32
  | .long => 64
  | .unsigned_long => 64
  | .long_long => 64
  | .unsigned_long_long => 64
  | .wchar_t => 32
  | .char16_t => 16
  | .char32_t => 32
  | _ => 8

/-- An executable instance of `StdLib`: the engine is `std::minstd_rand0`, the
integer distribution reduces one draw into the range, the real distribution
scales one draw by the modulus, with exact rationals in the place of
floating-point values. -/
def refStd : StdLib Nat Rat where
  bits := lp64_bits
  engine_of_seed := minstd_of_seed
  seed := fun _ s => minstd_of_seed s
  uniform_int := fun _ a b e => (a + ((minstd_next e : Nat) : Int) % (b - a + 1), minstd_next e)
  uniform_real := fun _ a b e =>
    (a + (b - a) * (((minstd_next e : Nat) : Rat) / 2147483647), minstd_next e)
  seed_eq := fun _ _ => rfl
  uniform_int_range := by
    intro T a b e _ hab _
    have hpos : 0 < b - a + 1 := by omega
    have h1 := Int.emod_nonneg ((minstd_next e : Nat) : Int) (ne_of_gt hpos)
    have h2 := Int.emod_lt_of_pos ((minstd_next e : Nat) : Int) hpos
    constructor
    · show a ≤ a + ((minstd_next e : Nat) : Int) % (b - a + 1)
      omega
    · show a + ((minstd_next e : Nat) : Int) % (b - a + 1) ≤ b
      omega

/-- A model of `std::bernoulli_distribution` over the engine of `refStd`: the
object stores the probability `p`, the sample is `true` when the scaled draw is
below the probability in force, and the stored probability is left alone. -/
def bernoulli : Distribution Nat where
  Obj := Rat
  Param := Rat
  Result := Bool
  Args := Rat
  construct := fun p => p
  call := fun d e =>
    (decide ((((minstd_next e : Nat) : Rat) - 1) / 2147483646 < d), d, minstd_next e)
  param := fun d => d
  call_param := fun d e p =>
    (decide ((((minstd_next e : Nat) : Rat) - 1) / 2147483646 < p), d, minstd_next e)

/-- The library `refStd` with the order of the rationals: an executable
instance of `StdLibReal`. -/
def refStdReal : StdLibReal Nat Rat where
  toStdLib := refStd
  lit_zero_lt_one := by norm_num
  uniform_real_range := by
    intro T a b e hab
    have hlt : minstd_next e < 2147483647 := Nat.mod_lt _ (by decide)
    have hlt' : ((minstd_next e : Nat) : Rat) < 2147483647 := by exact_mod_cast hlt
    have hu0 : (0 : Rat) ≤ ((minstd_next e : Nat) : Rat) / 2147483647 :=
      div_nonneg (Nat.cast_nonneg _) (by norm_num)
    have hu1 : ((minstd_next e : Nat) : Rat) / 2147483647 < 1 := by
      rw [div_lt_one (by norm_num)]
      exact hlt'
    have hba : (0 : Rat) ≤ b - a := sub_nonneg.mpr hab
    refine ⟨?_, ?_, ?_⟩
    · show a ≤ a + (b - a) * (((minstd_next e : Nat) : Rat) / 2147483647)
      have := mul_nonneg hba hu0
      linarith
    · show a + (b - a) * (((minstd_next e : Nat) : Rat) / 2147483647) ≤ b
      have := mul_le_mul_of_nonneg_left (le_of_lt hu1) hba
      linarith
    · intro hab'
      show a + (b - a) * (((minstd_next e : Nat) : Rat) / 2147483647) < b
      have := mul_lt_mul_of_pos_left hu1 (sub_pos.mpr hab')
      linarith

/-- A distribution class that the templates `rand(Dist&)` and
`rand(Dist&, param_type const&)` accept and whose `operator()(g, p)` keeps `p` as
the stored parameter: the parameter is a probability in percent, the sample is
`true` when the draw, reduced to `0..99`, is below the parameter in force. -/
def sticky : Distribution Nat where
  Obj := Nat
  Param := Nat
  Result := Bool
  Args := Nat
  construct := fun p => p
  call := fun d e => (decide (minstd_next e % 100 < d), d, minstd_next e)
  param := fun d => d
  call_param := fun _ e p => (decide (minstd_next e % 100 < p), p, minstd_next e)

/-- The state in which no thread has constructed its engine yet. -/
def World.start : World Nat := fun _ => none

/-- A sequence of calls of the kinds `example.cpp` makes, on the library
`refStd`: `reseed(0)`, the callable of `make_rng(0.f, 1.f)`, `rand(0, 200)`,
`reseed()`, and the callable of `make_rng<bernoulli_distribution>(0.75)`, each
with the entropy draw available to it. -/
def example_ops : List (Op Nat Rat × Nat) :=
  [(Op.reseed_value 0, 11),
   (Op.rng_real .float rfl (make_rng .float 0 1), 12),
   (Op.rand_int .int rfl 0 200, 13),
   (Op.reseed 77, 14),
   (Op.rng_dist bernoulli (make_rng_dist bernoulli (3 / 4 : Rat)), 15)]

/-! ## Lemmas on the engine slot of a thread -/

theorem get_engine_of_some (L : StdLib E F) (rd : Nat) (t : Tid) (w : World E) (e : E)
    (h : w t = some e) : detail.get_engine L rd t w = (e, w) := by
  simp [detail.get_engine, h]

theorem get_engine_of_none (L : StdLib E F) (rd : Nat) (t : Tid) (w : World E)
    (h : w t = none) :
    detail.get_engine L rd t w =
      (L.engine_of_seed rd, Function.update w t (some (L.engine_of_seed rd))) := by
  simp [detail.get_engine, h, detail.get_random_seed]

theorem get_engine_slot (L : StdLib E F) (rd : Nat) (t : Tid) (w : World E) :
    (detail.get_engine L rd t w).2 t = some (detail.get_engine L rd t w).1 := by
  cases h : w t with
  | none => simp [get_engine_of_none L rd t w h]
  | some e => simp [get_engine_of_some L rd t w e h, h]

theorem get_engine_other (L : StdLib E F) (rd : Nat) (t u : Tid) (w : World E)
    (hne : u ≠ t) : (detail.get_engine L rd t w).2 u = w u := by
  cases h : w t with
  | none => simp [get_engine_of_none L rd t w h, Function.update_noteq hne]
  | some e => simp [get_engine_of_some L rd t w e h]

theorem get_engine_congr (L : StdLib E F) (rd : Nat) (t : Tid) (w w' : World E)
    (h : w t = w' t) :
    (detail.get_engine L rd t w).1 = (detail.get_engine L rd t w').1 := by
  cases h1 : w t with
  | none =>
    rw [get_engine_of_none L rd t w h1, get_engine_of_none L rd t w' (h ▸ h1)]
  | some e =>
    rw [get_engine_of_some L rd t w e h1, get_engine_of_some L rd t w' e (h ▸ h1)]

theorem put_engine_slot (t : Tid) (e : E) (w : World E) :
    detail.put_engine t e w t = some e := by
  simp [detail.put_engine]

theorem put_engine_other (t u : Tid) (e : E) (w : World E) (hne : u ≠ t) :
    detail.put_engine t e w u = w u := by
  simp [detail.put_engine, Function.update_noteq hne]

/-! ## Each operation reads and writes the slot of its own thread only -/

theorem rand_int_fst (L : StdLib E F) (T : CType) (hT : detail.is_integer T = true)
    (a b : Int) (rd : Nat) (t : Tid) (w : World E) :
    (rand_int L T hT a b rd t w).1
      = (L.uniform_int T a b (detail.get_engine L rd t w).1).1 := rfl

theorem rand_int_snd (L : StdLib E F) (T : CType) (hT : detail.is_integer T = true)
    (a b : Int) (rd : Nat) (t : Tid) (w : World E) :
    (rand_int L T hT a b rd t w).2
      = detail.put_engine t (L.uniform_int T a b (detail.get_engine L rd t w).1).2
          (detail.get_engine L rd t w).2 := rfl

theorem rand_int_congr (L : StdLib E F) (T : CType) (hT : detail.is_integer T = true)
    (a b : Int) (rd : Nat) (t : Tid) (w w' : World E) (h : w t = w' t) :
    (rand_int L T hT a b rd t w).1 = (rand_int L T hT a b rd t w').1 ∧
    (rand_int L T hT a b rd t w).2 t = (rand_int L T hT a b rd t w').2 t := by
  simp only [rand_int_fst, rand_int_snd, put_engine_slot, get_engine_congr L rd t w w' h,
    and_self]

theorem rand_int_of_some (L : StdLib E F) (T : CType) (hT : detail.is_integer T = true)
    (a b : Int) (rd : Nat) (t : Tid) (w : World E) (e : E) (h : w t = some e) :
    (rand_int L T hT a b rd t w).1 = (L.uniform_int T a b e).1 ∧
    (rand_int L T hT a b rd t w).2 t = some (L.uniform_int T a b e).2 := by
  simp only [rand_int_fst, rand_int_snd, put_engine_slot, get_engine_of_some L rd t w e h,
    and_self]

theorem samples_congr (L : StdLib E F) (T : CType) (hT : detail.is_integer T = true)
    (a b : Int) (t : Tid) (n : Nat) :
    ∀ (rds : Nat → Nat) (w w' : World E), w t = w' t →
      (samples L T hT a b t n rds w).1 = (samples L T hT a b t n rds w').1 := by
  induction n with
  | zero => intro rds w w' _; rfl
  | succ n ih =>
    intro rds w w' h
    have hc := rand_int_congr L T hT a b (rds 0) t w w' h
    have hi := ih (fun i => rds (i + 1)) _ _ hc.2
    show (rand_int L T hT a b (rds 0) t w).1 :: _ = (rand_int L T hT a b (rds 0) t w').1 :: _
    rw [hc.1]
    exact congrArg _ hi

theorem samples_of_some (L : StdLib E F) (T : CType) (hT : detail.is_integer T = true)
    (a b : Int) (t : Tid) (n : Nat) :
    ∀ (rds rds' : Nat → Nat) (w w' : World E) (e : E), w t = some e → w' t = some e →
      (samples L T hT a b t n rds w).1 = (samples L T hT a b t n rds' w').1 := by
  induction n with
  | zero => intro rds rds' w w' e _ _; rfl
  | succ n ih =>
    intro rds rds' w w' e h h'
    have h1 := rand_int_of_some L T hT a b (rds 0) t w e h
    have h2 := rand_int_of_some L T hT a b (rds' 0) t w' e h'
    have hi := ih (fun i => rds (i + 1)) (fun i => rds' (i + 1)) _ _ _ h1.2 h2.2
    show (rand_int L T hT a b (rds 0) t w).1 :: _ = (rand_int L T hT a b (rds' 0) t w').1 :: _
    rw [h1.1, h2.1]
    exact congrArg _ hi

theorem reseed_value_slot (L : StdLib E F) (v : Nat) (rd : Nat) (t : Tid) (w : World E) :
    reseed_value L v rd t w t = some (L.engine_of_seed v) := by
  show detail.put_engine t (L.seed _ v) _ t = _
  rw [put_engine_slot, L.seed_eq]

theorem reseed_slot (L : StdLib E F) (rd2 : Nat) (rd : Nat) (t : Tid) (w : World E) :
    reseed L rd2 rd t w t = some (L.engine_of_seed rd2) := by
  show detail.put_engine t (L.seed _ (detail.get_random_seed rd2)) _ t = _
  rw [put_engine_slot, L.seed_eq]
  rfl

theorem reseed_value_other (L : StdLib E F) (v : Nat) (rd : Nat) (t u : Tid) (w : World E)
    (hne : u ≠ t) : reseed_value L v rd t w u = w u := by
  show detail.put_engine t (L.seed _ v) (detail.get_engine L rd t w).2 u = _
  rw [put_engine_other t u _ _ hne, get_engine_other L rd t u w hne]

theorem reseed_other (L : StdLib E F) (rd2 : Nat) (rd : Nat) (t u : Tid) (w : World E)
    (hne : u ≠ t) : reseed L rd2 rd t w u = w u := by
  show detail.put_engine t (L.seed _ _) (detail.get_engine L rd t w).2 u = _
  rw [put_engine_other t u _ _ hne, get_engine_other L rd t u w hne]

theorem op_run_eq (L : StdLib E F) (op : Op E F) (rd : Nat) (t : Tid) (w : World E) :
    op.run L rd t w
      = detail.put_engine t (op.on_engine L (detail.get_engine L rd t w).1)
          (detail.get_engine L rd t w).2 := by
  cases op <;> rfl

theorem op_run_of_some (L : StdLib E F) (op : Op E F) (rd : Nat) (t : Tid) (w : World E)
    (e : E) (h : w t = some e) : op.run L rd t w t = some (op.on_engine L e) := by
  rw [op_run_eq, put_engine_slot, get_engine_of_some L rd t w e h]

theorem op_run_other (L : StdLib E F) (op : Op E F) (rd : Nat) (t u : Tid) (w : World E)
    (hne : u ≠ t) : op.run L rd t w u = w u := by
  rw [op_run_eq, put_engine_other t u _ _ hne, get_engine_other L rd t u w hne]

theorem op_run_congr (L : StdLib E F) (op : Op E F) (rd : Nat) (t : Tid) (w w' : World E)
    (h : w t = w' t) : op.run L rd t w t = op.run L rd t w' t := by
  rw [op_run_eq, op_run_eq, put_engine_slot, put_engine_slot, get_engine_congr L rd t w w' h]

theorem run_ops_congr (L : StdLib E F) (t : Tid) (ops : List (Op E F × Nat)) :
    ∀ (w w' : World E), w t = w' t → run_ops L t ops w t = run_ops L t ops w' t := by
  induction ops with
  | nil => intro w w' h; exact h
  | cons o ops ih =>
    intro w w' h
    obtain ⟨op, rd⟩ := o
    exact ih _ _ (op_run_congr L op rd t w w' h)

theorem run_ops_of_some (L : StdLib E F) (t : Tid) (ops : List (Op E F × Nat)) :
    ∀ (w : World E) (e : E), w t = some e →
      run_ops L t ops w t = some (engine_after L ops e) := by
  induction ops with
  | nil => intro w e h; exact h
  | cons o ops ih =>
    intro w e h
    obtain ⟨op, rd⟩ := o
    exact ih _ _ (op_run_of_some L op rd t w e h)

theorem run_ops_other (L : StdLib E F) (t u : Tid) (hne : u ≠ t)
    (ops : List (Op E F × Nat)) :
    ∀ (w : World E), run_ops L t ops w u = w u := by
  induction ops with
  | nil => intro w; rfl
  | cons o ops ih =>
    intro w
    obtain ⟨op, rd⟩ := o
    show run_ops L t ops (op.run L rd t w) u = w u
    rw [ih, op_run_other L op rd t u w hne]

theorem calls_eq_rand_dist_n (L : StdLib E F) (D : Distribution E) (t : Tid) (k : Nat) :
    ∀ (f : DistRng D) (rds : Nat → Nat) (w : World E),
      (DistRng.calls L t k f rds w).1 = (rand_dist_n L D t k f.dist rds w).1 ∧
      (DistRng.calls L t k f rds w).2.1.dist = (rand_dist_n L D t k f.dist rds w).2.1 ∧
      (DistRng.calls L t k f rds w).2.2 = (rand_dist_n L D t k f.dist rds w).2.2 := by
  induction k with
  | zero => intro f rds w; exact ⟨rfl, rfl, rfl⟩
  | succ k ih =>
    intro f rds w
    have hi := ih (f.call L (rds 0) t w).2.1 (fun i => rds (i + 1)) (f.call L (rds 0) t w).2.2
    refine ⟨?_, ?_, ?_⟩
    · show (f.call L (rds 0) t w).1 ::
          (DistRng.calls L t k (f.call L (rds 0) t w).2.1 (fun i => rds (i + 1))
            (f.call L (rds 0) t w).2.2).1 = _
      rw [hi.1]
      rfl
    · show (DistRng.calls L t k (f.call L (rds 0) t w).2.1 (fun i => rds (i + 1))
            (f.call L (rds 0) t w).2.2).2.1.dist = _
      rw [hi.2.1]
      rfl
    · show (DistRng.calls L t k (f.call L (rds 0) t w).2.1 (fun i => rds (i + 1))
            (f.call L (rds 0) t w).2.2).2.2 = _
      rw [hi.2.2]
      rfl

/-! ## The claims -/

/-- C1. Determinism under a fixed seed: on any thread and from any state of the
program, `reseed(v)` followed by `N` samples of `rand(a, b)` with `a <= b`, and
then `reseed(v)` again followed by `N` more samples, gives the same sequence of
samples twice, whatever the entropy source would have delivered. -/
theorem reseed_value_deterministic (L : StdLib E F) (T : CType)
    (hT : detail.is_integer T = true) (a b : Int) (_hab : a ≤ b) (v N : Nat) (t : Tid)
    (w : World E) (rd rd' : Nat) (rds rds' : Nat → Nat) :
    (samples L T hT a b t N rds (reseed_value L v rd t w)).1
      = (samples L T hT a b t N rds'
          (reseed_value L v rd' t
            (samples L T hT a b t N rds (reseed_value L v rd t w)).2)).1 :=
  samples_of_some L T hT a b t N rds rds' _ _ (L.engine_of_seed v)
    (reseed_value_slot L v rd t w) (reseed_value_slot L v rd' t _)

/-- C2. Integer range: for an integer type `T` accepted by `detail::is_integer`
and bounds `a <= b` of `T` (the full range of `T` included), `rand(a, b)` returns
a value `r` with `a <= r <= b` on any thread and from any state; when `a = b`
the value is `a`. -/
theorem rand_int_in_range (L : StdLib E F) (T : CType) (hT : detail.is_integer T = true)
    (a b : Int) (ha : min_value L.bits T ≤ a) (hab : a ≤ b) (hb : b ≤ max_value L.bits T)
    (rd : Nat) (t : Tid) (w : World E) :
    a ≤ (rand_int L T hT a b rd t w).1 ∧ (rand_int L T hT a b rd t w).1 ≤ b ∧
    (a = b → (rand_int L T hT a b rd t w).1 = a) := by
  have h := L.uniform_int_range T a b (detail.get_engine L rd t w).1 ha hab hb
  rw [rand_int_fst]
  exact ⟨h.1, h.2, fun hEq => le_antisymm (hEq ▸ h.2) h.1⟩

/-- C6. Reseeding is thread-local: `reseed()` and `reseed(value)` on thread `t`
leave the engine slot of every other thread `u` as it was, so the engine that
the next operation of `u` receives, the engine of `u` after any sequence of
operations of `u`, and the samples `u` draws are those of the state without the
reseed. -/
theorem reseed_thread_local (L : StdLib E F) (t u : Tid) (hne : u ≠ t) (w : World E)
    (rd2 value rd : Nat) :
    reseed L rd2 rd t w u = w u ∧
    reseed_value L value rd t w u = w u ∧
    (∀ rdu, (detail.get_engine L rdu u (reseed L rd2 rd t w)).1
        = (detail.get_engine L rdu u w).1 ∧
      (detail.get_engine L rdu u (reseed_value L value rd t w)).1
        = (detail.get_engine L rdu u w).1) ∧
    (∀ ops, run_ops L u ops (reseed L rd2 rd t w) u = run_ops L u ops w u ∧
      run_ops L u ops (reseed_value L value rd t w) u = run_ops L u ops w u) ∧
    (∀ T hT a b n rds,
      (samples L T hT a b u n rds (reseed L rd2 rd t w)).1
        = (samples L T hT a b u n rds w).1 ∧
      (samples L T hT a b u n rds (reseed_value L value rd t w)).1
        = (samples L T hT a b u n rds w).1) := by
  have h1 := reseed_other L rd2 rd t u w hne
  have h2 := reseed_value_other L value rd t u w hne
  refine ⟨h1, h2, fun rdu => ⟨?_, ?_⟩, fun ops => ⟨?_, ?_⟩, fun T hT a b n rds => ⟨?_, ?_⟩⟩
  · exact get_engine_congr L rdu u _ _ h1
  · exact get_engine_congr L rdu u _ _ h2
  · exact run_ops_congr L u ops _ _ h1
  · exact run_ops_congr L u ops _ _ h2
  · exact samples_congr L T hT a b u n rds _ _ h1
  · exact samples_congr L T hT a b u n rds _ _ h2

/-- C7. One engine per thread, used by every operation: the first access of a
thread fills its slot and every later access returns that engine without
changing the state; once thread `t` has its engine `e`, after any sequence of
calls of `reseed`, `rand` and `make_rng` callables on `t` the slot of `t` holds
the state obtained by letting the calls act on `e` one after the other (each
call starts from the state the one before left, and `reseed` acts on that same
engine), and no other slot is touched. -/
theorem one_engine_per_thread (L : StdLib E F) (t : Tid) (w : World E) (e : E)
    (h : w t = some e) (ops : List (Op E F × Nat)) :
    (∀ rd (w0 : World E),
      (detail.get_engine L rd t w0).2 t = some (detail.get_engine L rd t w0).1 ∧
      ∀ rd', detail.get_engine L rd' t (detail.get_engine L rd t w0).2
        = ((detail.get_engine L rd t w0).1, (detail.get_engine L rd t w0).2)) ∧
    (∀ rd, detail.get_engine L rd t w = (e, w)) ∧
    run_ops L t ops w t = some (engine_after L ops e) ∧
    (∀ u, u ≠ t → run_ops L t ops w u = w u) := by
  refine ⟨fun rd w0 => ⟨get_engine_slot L rd t w0, fun rd' => ?_⟩,
    fun rd => get_engine_of_some L rd t w e h, run_ops_of_some L t ops w e h,
    fun u hne => run_ops_other L t u hne ops w⟩
  exact get_engine_of_some L rd' t _ _ (get_engine_slot L rd t w0)

/-- C3. The callable of `make_rng(a, b)` is `rand(a, b)` with the bounds fixed:
its members are the copies of `a` and `b` and nothing else, and invoking it on
any thread and in any state returns the sample and leaves the state that
`rand(a, b)` does there, for the integer and for the floating-point overload;
in particular after a `reseed(v)` made once the callable exists. -/
theorem make_rng_eq_rand (L : StdLib E F) (T : CType) :
    (∀ (a b : Int), (make_rng T a b).a = a ∧ (make_rng T a b).b = b) ∧
    (∀ (a b : F), (make_rng T a b).a = a ∧ (make_rng T a b).b = b) ∧
    (∀ (hT : detail.is_integer T = true) (a b : Int) (rd : Nat) (t : Tid) (w : World E),
      (make_rng T a b).call_int L hT rd t w = rand_int L T hT a b rd t w) ∧
    (∀ (hT : is_floating_point T = true) (a b : F) (rd : Nat) (t : Tid) (w : World E),
      (make_rng T a b).call_real L hT rd t w = rand_real L T hT a b rd t w) ∧
    (∀ (hT : detail.is_integer T = true) (a b : Int) (v rd rd' : Nat) (t : Tid) (w : World E),
      (make_rng T a b).call_int L hT rd t (reseed_value L v rd' t w)
        = rand_int L T hT a b rd t (reseed_value L v rd' t w)) ∧
    (∀ (hT : is_floating_point T = true) (a b : F) (v rd rd' : Nat) (t : Tid) (w : World E),
      (make_rng T a b).call_real L hT rd t (reseed_value L v rd' t w)
        = rand_real L T hT a b rd t (reseed_value L v rd' t w)) :=
  ⟨fun _ _ => ⟨rfl, rfl⟩, fun _ _ => ⟨rfl, rfl⟩, fun _ _ _ _ _ _ => rfl,
    fun _ _ _ _ _ _ => rfl, fun _ _ _ _ _ _ _ _ => rfl, fun _ _ _ _ _ _ _ _ => rfl⟩

/-- C4. The callable of `make_rng<Dist>(args...)` owns the one distribution
object `Dist(args...)` built at construction time: for every `k`, invoking the
callable `k` times in a row returns the same `k` samples and leaves the same
distribution object and the same state as calling `rand(d)` `k` times in a row
on that object, so the state of the distribution is carried from each invocation
to the next. -/
theorem make_rng_dist_eq_rand (L : StdLib E F) (D : Distribution E) (args : D.Args)
    (k : Nat) (t : Tid) (rds : Nat → Nat) (w : World E) :
    (make_rng_dist D args).dist = D.construct args ∧
    (DistRng.calls L t k (make_rng_dist D args) rds w).1
      = (rand_dist_n L D t k (D.construct args) rds w).1 ∧
    (DistRng.calls L t k (make_rng_dist D args) rds w).2.1.dist
      = (rand_dist_n L D t k (D.construct args) rds w).2.1 ∧
    (DistRng.calls L t k (make_rng_dist D args) rds w).2.2
      = (rand_dist_n L D t k (D.construct args) rds w).2.2 :=
  ⟨rfl, calls_eq_rand_dist_n L D t k (make_rng_dist D args) rds w⟩

/-- C5, as amended. Parameter override is for one call only, for a
distribution whose `operator()(g, p)` leaves the stored parameters alone and
whose `operator()(g)` is `operator()(g, param())`, as the standard distributions
do: `rand(dist, p)` returns the sample `dist` produces from the engine of the
calling thread under `p`, the parameters stored in `dist` are the same after
the call, and a following `rand(dist)` samples under those original parameters.
For every distribution class, `rand(dist, p)` leaves `dist` as its own
`operator()(g, p)` does. -/
theorem rand_dist_param_frame (L : StdLib E F) (D : Distribution E)
    (hcall : ∀ d e, D.call d e = D.call_param d e (D.param d))
    (hframe : ∀ d e p, D.param (D.call_param d e p).2.1 = D.param d)
    (dist : D.Obj) (p : D.Param) (rd : Nat) (t : Tid) (w : World E) :
    (rand_dist_param L D dist p rd t w).1
      = (D.call_param dist (detail.get_engine L rd t w).1 p).1 ∧
    D.param (rand_dist_param L D dist p rd t w).2.1 = D.param dist ∧
    (∀ rd', (rand_dist L D (rand_dist_param L D dist p rd t w).2.1 rd' t
          (rand_dist_param L D dist p rd t w).2.2).1
      = (D.call_param (rand_dist_param L D dist p rd t w).2.1
          (D.call_param dist (detail.get_engine L rd t w).1 p).2.2 (D.param dist)).1) ∧
    (rand_dist_param L D dist p rd t w).2.1
      = (D.call_param dist (detail.get_engine L rd t w).1 p).2.1 := by
  refine ⟨rfl, hframe _ _ _, fun rd' => ?_, rfl⟩
  have hslot : (rand_dist_param L D dist p rd t w).2.2 t
      = some (D.call_param dist (detail.get_engine L rd t w).1 p).2.2 :=
    put_engine_slot t _ _
  have hpar : D.param (rand_dist_param L D dist p rd t w).2.1 = D.param dist := hframe _ _ _
  show (D.call _ (detail.get_engine L rd' t _).1).1 = _
  rw [get_engine_of_some L rd' t _ _ hslot, hcall, hpar]

/-- C5, as stated, fails: the class `sticky` is accepted by the template
`rand(Dist&, param_type const&)`, and after `rand(dist, 25)` on an object that
stored `75` the stored parameter is `25`. -/
theorem rand_dist_param_frame_counterexample :
    ¬ (sticky.param (rand_dist_param refStd sticky (75 : Nat) (25 : Nat) 5 0 World.start).2.1
        = sticky.param (75 : Nat)) := by
  show ¬ ((25 : Nat) = 75)
  decide

/-- C9. Half-open upper bound for the bound generator: every sample `x` that
the callable of `make_rng(0.0, 1.0)` returns, on any thread and from any state,
satisfies `0.0 <= x < 1.0`; the value `1.0` is never returned. -/
theorem make_rng_unit_half_open [Preorder F] [Zero F] [One F] (L : StdLibReal E F)
    (T : CType) (hT : is_floating_point T = true) (rd : Nat) (t : Tid) (w : World E) :
    0 ≤ ((make_rng T (0 : F) 1).call_real L.toStdLib hT rd t w).1 ∧
    ((make_rng T (0 : F) 1).call_real L.toStdLib hT rd t w).1 < 1 ∧
    ((make_rng T (0 : F) 1).call_real L.toStdLib hT rd t w).1 ≠ 1 := by
  have h := L.uniform_real_range T 0 1 (detail.get_engine L.toStdLib rd t w).1
    (le_of_lt L.lit_zero_lt_one)
  exact ⟨h.1, h.2.2 L.lit_zero_lt_one, ne_of_lt (h.2.2 L.lit_zero_lt_one)⟩

/-- C10. Type constraint of `rand(a, b)`: a call with both bounds of type `T`
is accepted exactly when `T` is `short`, `int`, `long`, `long long`, one of
their unsigned counterparts, or a floating-point type; an accepted call has
exactly one viable overload and no type enables both; for every other type, and
for `bool`, `char`, `signed char` and `unsigned char` in particular, no
overload is viable; bounds of two different types are not accepted. -/
theorem rand_type_constraint :
    (∀ T, accepted T T = true ↔
      (T = .short ∨ T = .int ∨ T = .long ∨ T = .long_long ∨
        T = .unsigned_short ∨ T = .unsigned_int ∨ T = .unsigned_long ∨
        T = .unsigned_long_long ∨ is_floating_point T = true)) ∧
    (∀ T, accepted T T = true →
      viable T T = [RandOverload.integer] ∨ viable T T = [RandOverload.floating]) ∧
    (∀ T, ¬ (RandOverload.integer.enabled T = true ∧ RandOverload.floating.enabled T = true)) ∧
    (∀ T, accepted T T = false → viable T T = []) ∧
    viable .bool .bool = [] ∧ viable .char .char = [] ∧
    viable .signed_char .signed_char = [] ∧ viable .unsigned_char .unsigned_char = [] ∧
    (∀ Ta Tb, accepted Ta Tb = true → Ta = Tb) := by
  refine ⟨?_, ?_, ?_, ?_, rfl, rfl, rfl, rfl, ?_⟩
  · intro T; cases T <;> decide
  · intro T; cases T <;> decide
  · intro T; cases T <;> decide
  · intro T; cases T <;> decide
  · intro Ta Tb; cases Ta <;> cases Tb <;> decide

/-! ## The claims at concrete inputs -/

theorem reseed_value_deterministic_witness :
    detail.is_integer .int = true ∧ (0 : Int) ≤ 1000 ∧
    (samples refStd .int rfl 0 1000 0 3 (fun _ => 7)
        (reseed_value refStd 42 5 0 World.start)).1
      = (samples refStd .int rfl 0 1000 0 3 (fun _ => 9)
          (reseed_value refStd 42 6 0
            (samples refStd .int rfl 0 1000 0 3 (fun _ => 7)
              (reseed_value refStd 42 5 0 World.start)).2)).1 :=
  ⟨rfl, by decide,
    reseed_value_deterministic refStd .int rfl 0 1000 (by decide) 42 3 0 World.start 5 6
      (fun _ => 7) (fun _ => 9)⟩

theorem rand_int_in_range_witness :
    detail.is_integer .long_long = true ∧
    min_value refStd.bits .long_long ≤ -9223372036854775808 ∧
    (-9223372036854775808 : Int) ≤ 9223372036854775807 ∧
    9223372036854775807 ≤ max_value refStd.bits .long_long ∧
    (-9223372036854775808 : Int)
      ≤ (rand_int refStd .long_long rfl (-9223372036854775808) 9223372036854775807
          5 0 World.start).1 ∧
    (rand_int refStd .long_long rfl (-9223372036854775808) 9223372036854775807
          5 0 World.start).1 ≤ 9223372036854775807 :=
  ⟨rfl, by decide, by decide, by decide,
    (rand_int_in_range refStd .long_long rfl (-9223372036854775808) 9223372036854775807
      (by decide) (by decide) (by decide) 5 0 World.start).1,
    (rand_int_in_range refStd .long_long rfl (-9223372036854775808) 9223372036854775807
      (by decide) (by decide) (by decide) 5 0 World.start).2.1⟩

theorem make_rng_eq_rand_witness :
    detail.is_integer .int = true ∧ is_floating_point .float = true ∧
    (make_rng .int (10 : Int) 20).call_int refStd rfl 5 0 World.start
      = rand_int refStd .int rfl 10 20 5 0 World.start ∧
    (make_rng .float (0 : Rat) 1).call_real refStd rfl 5 0 (reseed_value refStd 0 6 0 World.start)
      = rand_real refStd .float rfl 0 1 5 0 (reseed_value refStd 0 6 0 World.start) :=
  ⟨rfl, rfl,
    (make_rng_eq_rand refStd .int).2.2.1 rfl 10 20 5 0 World.start,
    (make_rng_eq_rand refStd .float).2.2.2.2.2 rfl 0 1 0 5 6 0 World.start⟩

theorem rand_dist_param_frame_witness :
    bernoulli.param (rand_dist_param refStd bernoulli (3 / 4 : Rat) (1 / 4 : Rat)
      5 0 World.start).2.1 = bernoulli.param (3 / 4 : Rat) :=
  (rand_dist_param_frame refStd bernoulli (fun _ _ => rfl) (fun _ _ _ => rfl)
    (3 / 4 : Rat) (1 / 4 : Rat) 5 0 World.start).2.1

theorem reseed_thread_local_witness :
    (1 : Tid) ≠ 0 ∧
    reseed refStd 77 5 0 (reseed_value refStd 42 6 1 World.start) 1
      = reseed_value refStd 42 6 1 World.start 1 ∧
    reseed_value refStd 9 5 0 (reseed_value refStd 42 6 1 World.start) 1
      = reseed_value refStd 42 6 1 World.start 1 :=
  ⟨by decide,
    (reseed_thread_local refStd 0 1 (by decide) (reseed_value refStd 42 6 1 World.start)
      77 9 5).1,
    (reseed_thread_local refStd 0 1 (by decide) (reseed_value refStd 42 6 1 World.start)
      77 9 5).2.1⟩

theorem one_engine_per_thread_witness :
    reseed_value refStd 0 5 0 World.start 0 = some 1 ∧
    run_ops refStd 0 example_ops (reseed_value refStd 0 5 0 World.start) 0
      = some (engine_after refStd example_ops 1) :=
  ⟨rfl,
    (one_engine_per_thread refStd 0 (reseed_value refStd 0 5 0 World.start) 1 rfl
      example_ops).2.2.1⟩

theorem rand_type_constraint_witness :
    accepted .int .int = true ∧
    (viable .int .int = [RandOverload.integer] ∨ viable .int .int = [RandOverload.floating]) ∧
    accepted .bool .bool = false ∧ viable .bool .bool = [] :=
  ⟨rfl, rand_type_constraint.2.1 .int rfl, rfl, rand_type_constraint.2.2.2.1 .bool rfl⟩

theorem make_rng_unit_half_open_witness :
    is_floating_point .double = true ∧
    (0 : Rat) ≤ ((make_rng .double (0 : Rat) 1).call_real refStdReal.toStdLib rfl 5 0
        (reseed_value refStd 0 6 0 World.start)).1 ∧
    ((make_rng .double (0 : Rat) 1).call_real refStdReal.toStdLib rfl 5 0
        (reseed_value refStd 0 6 0 World.start)).1 < 1 :=
  ⟨rfl,
    (make_rng_unit_half_open refStdReal .double rfl 5 0
      (reseed_value refStd 0 6 0 World.start)).1,
    (make_rng_unit_half_open refStdReal .double rfl 5 0
      (reseed_value refStd 0 6 0 World.start)).2.1⟩

end easyrand
